import Mathlib

/-!
Shallow embedding of the latex-to-word-converter repository
(`src/latex_to_word.py`, `src/app.py`) and theorems settling the
specification claims.

Texts are modelled as lists of characters (`Str`).  Each Python
`re.sub` call of the refinement pipeline is embedded as a specialised
left-to-right, non-overlapping scanner (`subAll` with a per-pattern
matcher); all patterns in the source are either literal strings, a
fixed prefix followed by a digit group, or a duplicated-group pattern,
so no general regex engine is needed.  Documents, tables and the
orchestrator state are embedded as structures, and the fallible steps
of `convert` (external converter, document load/refine, persistence)
are driven by an explicit environment of step outcomes.
-/

namespace LatexToWord

/-- Texts (Python `str`) are lists of characters. -/
abbrev Str := List Char

/-- Character-list form of a string literal. -/
def cl (s : String) : Str := s.toList

/-- Python `str.startswith`. -/
def leadsWith : Str → Str → Bool
  | [], _ => true
  | _ :: _, [] => false
  | c :: cs, d :: ds => c == d && leadsWith cs ds

/-- Python substring test (`needle in haystack`). -/
def hasSub (p : Str) : Str → Bool
  | [] => leadsWith p []
  | c :: cs => leadsWith p (c :: cs) || hasSub p cs

/-- Whitespace, as in Python `str.strip` and the regex class `\s`. -/
def isWS (c : Char) : Bool := c.isWhitespace

/-- Python `str.strip`. -/
def trimL (l : Str) : Str := ((l.dropWhile isWS).reverse.dropWhile isWS).reverse

/-- Python `text.split('\n')`. -/
def splitNl : Str → List Str
  | [] => [[]]
  | c :: cs =>
    let r := splitNl cs
    if c = '\n' then [] :: r else (c :: r.headD []) :: r.tail

/-- Python `'\n'.join(lines)`. -/
def joinNl : List Str → Str
  | [] => []
  | [l] => l
  | l :: ls => l ++ '\n' :: joinNl ls

/-- A matcher tries to recognise one regex match at the head of the
input and returns the replacement text together with the number of
characters the match consumes (always positive for the matchers below;
the zero case is only a termination guard). -/
abbrev Matcher := Str → Option (Str × Nat)

/-- Core of `re.sub`: scan left to right, replace each non-overlapping
match and continue after it; `fuel` is instantiated with the input
length, which suffices because every match consumes at least one
character. -/
def subAllF (m : Matcher) : Nat → Str → Str
  | _, [] => []
  | 0, l => l
  | fuel + 1, c :: cs =>
    match m (c :: cs) with
    | some (r, k) =>
      if k = 0 then c :: subAllF m fuel cs
      else r ++ subAllF m fuel (cs.drop (k - 1))
    | none => c :: subAllF m fuel cs

/-- Python `re.sub pattern repl text` for one pattern. -/
def subAll (m : Matcher) (l : Str) : Str := subAllF m l.length l

/-- Matcher for a literal pattern with a literal replacement. -/
def litM (p r : Str) : Matcher := fun l =>
  if leadsWith p l then some (r, p.length) else none

/-- Python `str.replace` (also `re.sub` with a literal pattern). -/
def replaceAllL (p r l : Str) : Str := subAll (litM p r) l

/-- Matcher for the doubled-month patterns such as `0808/(\d{4})` with
replacement `08/\1`. -/
def dblM (pre keep : String) : Matcher := fun l =>
  if leadsWith (cl pre ++ ['/']) l then
    let rest := l.drop ((cl pre).length + 1)
    let d := rest.take 4
    if d.length = 4 && d.all (·.isDigit) then
      some (cl keep ++ '/' :: d, (cl pre).length + 5)
    else none
  else none

/-- Matcher for `∼(\d+)%` with replacement `∼\1 %` (the digit run is
maximal; a shorter run would end at a digit, not `%`, so greedy
matching is exact). -/
def pctM : Matcher := fun l =>
  match l with
  | c :: rest =>
    if c = '∼' then
      let d := rest.takeWhile (·.isDigit)
      if d.isEmpty then none
      else
        match rest.drop d.length with
        | '%' :: _ => some ('∼' :: (d ++ [' ', '%']), d.length + 2)
        | _ => none
    else none
  | [] => none

/-- Matcher for `(X)\s+\1` with replacement `\1` for a literal group
`X`; `X` starts with a non-space character, so the maximal whitespace
run is the unique possible match of `\s+`. -/
def dupLitM (x : String) : Matcher := fun l =>
  if leadsWith (cl x) l then
    let r := l.drop (cl x).length
    let w := r.takeWhile isWS
    if !w.isEmpty && leadsWith (cl x) (r.drop w.length) then
      some (cl x, (cl x).length + w.length + (cl x).length)
    else none
  else none

/-- Matcher for `(∼ \d+,?\d*)\s+\1` with replacement `\1`.  Group
candidates are enumerated in the Python backtracking preference order:
longest `\d+` first, the optional comma taken when possible, then the
greedy `\d*`; the first candidate followed by whitespace and an exact
repetition wins. -/
def tildeDupM : Matcher := fun l =>
  match l with
  | '∼' :: ' ' :: rest =>
    let d := rest.takeWhile (·.isDigit)
    if d.isEmpty then none
    else
      let after := rest.drop d.length
      let withComma : List (Str × Str) :=
        match after with
        | ',' :: a2 =>
          let e := a2.takeWhile (·.isDigit)
          ((List.range (e.length + 1)).reverse).map
            (fun j => (d ++ ',' :: e.take j, a2.drop j))
        | _ => []
      let noComma : List (Str × Str) :=
        ((List.range d.length).reverse).map
          (fun i => (d.take (i + 1), d.drop (i + 1) ++ after))
      (withComma ++ noComma).findSome? (fun gr =>
        let g := '∼' :: ' ' :: gr.1
        let w := gr.2.takeWhile isWS
        if !w.isEmpty && leadsWith g (gr.2.drop w.length) then
          some (g, g.length + w.length + g.length)
        else none)
  | _ => none

/-- Apply a list of `re.sub` rules in declared order, each over the
whole text before the next (as the Python methods do). -/
def applyRules (rs : List Matcher) (t : Str) : Str :=
  rs.foldl (fun acc m => subAll m acc) t

/-- Rules of `_fix_truncated_dates`; every group in these patterns is a
fixed string, so each rule is a literal substitution. -/
def truncatedDateRules : List Matcher :=
  [ litM (cl "/2022 bis 03/2025") (cl "08/2022 bis 03/2025")
  , litM (cl "/2021 bis 07/2022") (cl "03/2021 bis 07/2022")
  , litM (cl "/2020 bis heute") (cl "08/2020 bis heute")
  , litM (cl "/2025 bis heute") (cl "03/2025 bis heute")
  , litM (cl "/2016 bis 10/2020") (cl "09/2016 bis 10/2020") ]

/-- `_fix_truncated_dates`. -/
def fixTruncatedDatesL (t : Str) : Str := applyRules truncatedDateRules t

/-- `_fix_percentage_spacing`. -/
def fixPercentageSpacingL (t : Str) : Str := subAll pctM t

/-- Line dropped by `_remove_stray_page_numbers`: after `strip` the
line matches `^\s*\d\s*$`, i.e. it is a single digit. -/
def isStrayLine (l : Str) : Bool :=
  match trimL l with
  | [d] => d.isDigit
  | _ => false

/-- `_remove_stray_page_numbers`. -/
def removeStrayPageNumbersL (t : Str) : Str :=
  joinNl ((splitNl t).filter (fun l => !isStrayLine l))

/-- The five doubled-prefix collapse rules shared by
`_comprehensive_text_replacement` and `_fix_runs_directly`. -/
def doubledPrefixRules : List Matcher :=
  [ dblM "0808" "08", dblM "0303" "03", dblM "0708" "07"
  , dblM "0909" "09", dblM "1008" "10" ]

/-- The bare-slash fallback rules of `_comprehensive_text_replacement`
(their replacement strings are literals, not backreferences). -/
def bareSlashRules : List Matcher :=
  [ litM (cl "/2022") (cl "08/2022")
  , litM (cl "/2021") (cl "03/2021")
  , litM (cl "/2020") (cl "08/2020")
  , litM (cl "/2025") (cl "03/2025")
  , litM (cl "/2016") (cl "09/2016") ]

/-- Paragraph-level replacement list of
`_comprehensive_text_replacement`: doubled-prefix collapases first,
then the bare-slash fallbacks. -/
def comprehensiveTextReplacementL (t : Str) : Str :=
  applyRules (doubledPrefixRules ++ bareSlashRules) t

/-- Run-level replacement list of `_fix_runs_directly`. -/
def fixRunsDirectlyL (t : Str) : Str := applyRules doubledPrefixRules t

/-- Replacement list of `_fix_missing_content`. -/
def contentFixRules : List Matcher :=
  [ litM (cl " ∼ 10,000 ∼ 10,000 Requests/Tag") (cl " ∼ 10,000 Requests/Tag")
  , litM (cl " ∼ 200,000 ∼ 200,000 Nutzer") (cl " ∼ 200,000 Nutzer")
  , litM (cl "Kosten ∼ 30 % ∼ 30 % niedriger") (cl "Kosten ∼ 30 % niedriger")
  , litM (cl " Requests/Tag") (cl " ∼ 10,000 Requests/Tag")
  , litM (cl " Nutzer integriert") (cl " ∼ 200,000 Nutzer integriert")
  , litM (cl "Kosten  niedriger") (cl "Kosten ∼ 30 % niedriger")
  , litM (cl "\\quad") (cl "    ")
  , litM (cl "\\sim") (cl "≈")
  , litM (cl "\\approx") (cl "≈") ]

/-- `_fix_missing_content`, one application of its rule list. -/
def fixMissingContentL (t : Str) : Str := applyRules contentFixRules t

/-- Replacement list of `_clean_duplicates`. -/
def duplicateRules : List Matcher :=
  [ tildeDupM, dupLitM "Cottbus, Germany", dupLitM "shirzarm@b-tu.de"
  , dupLitM "Arman Shirzad" ]

/-- `_clean_duplicates`. -/
def cleanDuplicatesL (t : Str) : Str := applyRules duplicateRules t

/-- Effect of the full Text-Correction Engine (`_fix_text_issues`) on
the text of one single-run paragraph or table-cell paragraph: the
per-paragraph fixes (truncated dates, percentage spacing, stray page
numbers), then `_comprehensive_text_replacement` on the paragraph
text, then `_fix_runs_directly` on the single run carrying that text,
then `_fix_missing_content` (whose rule table is applied first at
paragraph level and then again at run level), then
`_clean_duplicates`. -/
def fixTextIssuesL (t : Str) : Str :=
  cleanDuplicatesL (fixMissingContentL (fixMissingContentL (fixRunsDirectlyL
    (comprehensiveTextReplacementL (removeStrayPageNumbersL
      (fixPercentageSpacingL (fixTruncatedDatesL t)))))))

/-- String-level wrapper for the full engine. -/
def fixTextIssues (s : String) : String := (fixTextIssuesL (cl s)).asString

/-- String-level wrapper for the paragraph-level comprehensive pass. -/
def comprehensiveTextReplacement (s : String) : String :=
  (comprehensiveTextReplacementL (cl s)).asString

/-- String-level wrapper for the run-level collapse pass. -/
def fixRunsDirectly (s : String) : String := (fixRunsDirectlyL (cl s)).asString

/-! ## Header Reconstructor (`_handle_header_with_photo`,
`_fix_header_content`, `_add_photo_to_header_table`) -/

/-- Identity marker searched in row 0 / col 0. -/
def nameMarker : Str := cl "Arman Shirzad"

/-- Location marker searched in row 1 / col 0 and in contact lines. -/
def locMarker : Str := cl "Cottbus"

/-- Email marker of a contact line. -/
def mailMarker : Str := cl "shirzarm@b-tu.de"

/-- Phone-number substring required in a contact line. -/
def phoneMarker : Str := cl "+49 157 5669 3804"

/-- Canonical contact string used to regenerate malformed contact
lines and to append a missing contact line. -/
def canonicalContact : Str :=
  cl "Cottbus, Germany    shirzarm@b-tu.de    +49 157 5669 3804"

/-- Python `line.replace('\\quad', '    ')`. -/
def replQuadL (l : Str) : Str := replaceAllL (cl "\\quad") (cl "    ") l

/-- Per-line step of the `_fix_header_content` loop: strip, drop empty
lines, replace the `\quad` command, keep contact lines (regenerating
them from the canonical string when the phone substring is missing)
and name lines, and drop everything else. -/
def processHeaderLine (line : Str) : Option Str :=
  let l := trimL line
  if l = [] then none
  else
    let l := replQuadL l
    if hasSub locMarker l && hasSub mailMarker l then
      if hasSub phoneMarker l then some (replQuadL l)
      else some canonicalContact
    else if hasSub nameMarker l then some l
    else none

/-- Line list produced by `_fix_header_content` for the header cell:
the kept lines, with the name inserted at the front when no kept line
contains the name and the canonical contact appended when no kept
line contains the location marker. -/
def fixHeaderLinesL (ls : List Str) : List Str :=
  let cleaned := ls.filterMap processHeaderLine
  let cleaned :=
    if cleaned.any (fun l => hasSub nameMarker l) then cleaned
    else nameMarker :: cleaned
  if cleaned.any (fun l => hasSub locMarker l) then cleaned
  else cleaned ++ [canonicalContact]

/-- New text of the header cell. -/
def fixHeaderCellTextL (t : Str) : Str := joinNl (fixHeaderLinesL (splitNl t))

/-- A table cell: its visible text and whether an inline image was
embedded into it. -/
structure CellM where
  text : Str
  hasImage : Bool
deriving DecidableEq

/-- A table is a list of rows of cells. -/
structure TableM where
  rows : List (List CellM)
deriving DecidableEq

/-- Cell used for out-of-range accesses in the model (the data-model
invariant of the spec makes real tables rectangular, so detection
never reads a missing cell in practice). -/
def defaultCellM : CellM := ⟨[], false⟩

/-- Cell at row `i`, column `j`. -/
def cellAt (t : TableM) (i j : Nat) : CellM :=
  (t.rows.getD i []).getD j defaultCellM

/-- Detection test of `_handle_header_with_photo`: at least two rows,
at least two columns in row 0, the identity marker in the stripped
row-0/col-0 text and the location marker in the stripped row-1/col-0
text. -/
def headerTableMatch (t : TableM) : Bool :=
  !t.rows.isEmpty && decide (2 ≤ t.rows.length)
    && decide (2 ≤ (t.rows.getD 0 []).length)
    && hasSub nameMarker (trimL (cellAt t 0 0).text)
    && hasSub locMarker (trimL (cellAt t 1 0).text)

/-- `_fix_header_content`: delete every row except row 0 and rewrite
the first cell's text. -/
def fixHeaderContentT (t : TableM) : TableM :=
  let r0 := t.rows.getD 0 []
  let c0 := r0.getD 0 defaultCellM
  ⟨[r0.set 0 { c0 with text := fixHeaderCellTextL c0.text }]⟩

/-- `_add_photo_to_header_table`: when a candidate photo path exists
(`photoFound`), clear the row-0/col-1 cell and embed the image;
otherwise only a diagnostic is printed. -/
def addPhotoT (photoFound : Bool) (t : TableM) : TableM :=
  if photoFound then
    ⟨t.rows.set 0 ((t.rows.getD 0 []).set 1 ⟨[], true⟩)⟩
  else t

/-- `_handle_header_with_photo`: scan tables in document order and
reconstruct the first one matching the detector, leaving all others
untouched. -/
def handleHeaderWithPhoto (photoFound : Bool) : List TableM → List TableM
  | [] => []
  | t :: ts =>
    if headerTableMatch t then addPhotoT photoFound (fixHeaderContentT t) :: ts
    else t :: handleHeaderWithPhoto photoFound ts

/-- Text of the row-0/col-0 cell. -/
def cellText00 (t : TableM) : Str := (cellAt t 0 0).text

/-! ## Structural Classifier (`_format_sections`, `_format_lists`) -/

/-- The fixed section keywords of `_format_sections`. -/
def sectionKeywords : List Str :=
  [ cl "Kurzprofil", cl "Berufserfahrung", cl "Projekte", cl "Ausbildung"
  , cl "Kenntnisse und Fähigkeiten", cl "Publikationen", cl "Zertifikate"
  , cl "Sprachen", cl "Verfügbarkeit", cl "Links" ]

/-- Heading test of `_format_sections`:
`any(text.strip().startswith(keyword) for keyword in section_keywords)`. -/
def isHeadingTextB (t : Str) : Bool :=
  sectionKeywords.any (fun k => leadsWith k (trimL t))

/-- List-item test of `_format_lists`:
`text.strip().startswith('•') or text.strip().startswith('-')`. -/
def isListTextB (t : Str) : Bool :=
  leadsWith (cl "•") (trimL t) || leadsWith (cl "-") (trimL t)

/-- Role assigned to a paragraph by the Structural Classifier. -/
inductive Role
  | heading
  | listItem
  | body
deriving DecidableEq

/-- The classifier: a paragraph is a heading when `_format_sections`
reformats it, a list item when `_format_lists` reformats it, and body
otherwise (the two tests are mutually exclusive, see below). -/
def classifyParagraph (t : Str) : Role :=
  if isHeadingTextB t then .heading
  else if isListTextB t then .listItem
  else .body

/-! ## Style & Layout Normalizer (`_setup_document_styles`,
`_apply_page_layout`, `_format_sections`, `_format_lists`) -/

/-- EMU value of `Pt(n)` (python-docx stores lengths in EMU). -/
def ptEmu (n : Int) : Int := n * 12700

/-- EMU value of `n/10` centimetres (`Cm(1) = cmTenthsEmu 10`,
`Cm(29.7) = cmTenthsEmu 297`). -/
def cmTenthsEmu (n : Int) : Int := n * 36000

/-- Attributes of a named style that the pipeline touches; line
spacing is stored multiplied by 100 (`0.9` becomes `90`). -/
structure StyleAttrs where
  fontName : String
  fontSize : Int
  fontBold : Option Bool
  lineSpacing100 : Int
  spaceBefore : Int
  spaceAfter : Int
  firstLineIndent : Int
deriving DecidableEq

/-- The style registry: the `Normal` style and the `Heading 1` style
(absent until `add_style` creates it). -/
structure StyleReg where
  normal : StyleAttrs
  heading1 : Option StyleAttrs
deriving DecidableEq

/-- Attributes of a freshly added style (only fields the pipeline then
overwrites matter for the claims). -/
def freshStyle : StyleAttrs := ⟨"", 0, none, 100, 0, 0, 0⟩

/-- `_setup_document_styles`: overwrite the `Normal` style constants
and define or overwrite the `Heading 1` style constants. -/
def setupDocumentStyles (st : StyleReg) : StyleReg :=
  { normal := { st.normal with
      fontName := "Liberation Serif", fontSize := ptEmu 10
      lineSpacing100 := 90, spaceBefore := ptEmu 0
      spaceAfter := ptEmu 1, firstLineIndent := ptEmu 0 }
    heading1 := some { st.heading1.getD freshStyle with
      fontName := "Liberation Serif", fontSize := ptEmu 12
      fontBold := some true, spaceBefore := ptEmu 3
      spaceAfter := ptEmu 1, lineSpacing100 := 100 } }

/-- Geometry of one document section; `headerDistance` stands for the
section attributes the layout pass leaves untouched. -/
structure SectGeom where
  topMargin : Int
  bottomMargin : Int
  leftMargin : Int
  rightMargin : Int
  pageWidth : Int
  pageHeight : Int
  headerDistance : Int
deriving DecidableEq

/-- Per-section assignment of `_apply_page_layout`: 1 cm margins, A4
page size. -/
def applySectGeom (s : SectGeom) : SectGeom :=
  { s with
    topMargin := cmTenthsEmu 10, bottomMargin := cmTenthsEmu 10
    leftMargin := cmTenthsEmu 10, rightMargin := cmTenthsEmu 10
    pageWidth := cmTenthsEmu 210, pageHeight := cmTenthsEmu 297 }

/-- Paragraph alignment values used by the pipeline. -/
inductive AlignK
  | left
  | center
  | right
deriving DecidableEq

/-- A top-level paragraph: its text plus the formatting attributes the
pipeline touches. -/
structure ParaM where
  text : Str
  styleName : String
  alignment : Option AlignK
  leftIndent : Option Int
  spaceBefore : Option Int
  spaceAfter : Option Int
  lineSpacing100 : Option Int
deriving DecidableEq

/-- Per-paragraph effect of `_format_sections`. -/
def formatSectionsP (p : ParaM) : ParaM :=
  if isHeadingTextB p.text then
    { p with styleName := "Heading 1", alignment := some .left }
  else p

/-- Per-paragraph effect of `_format_lists`. -/
def formatListsP (p : ParaM) : ParaM :=
  if isListTextB p.text then
    { p with leftIndent := some (ptEmu 10), spaceBefore := some (ptEmu 0)
             spaceAfter := some (ptEmu (-1)), lineSpacing100 := some 90 }
  else p

/-- The in-memory document: style registry, section geometry,
top-level paragraphs and tables. -/
structure DocM where
  styles : StyleReg
  sections : List SectGeom
  paragraphs : List ParaM
  tables : List TableM
deriving DecidableEq

/-- `_setup_document_styles` on a document. -/
def setupStylesD (d : DocM) : DocM :=
  { d with styles := setupDocumentStyles d.styles }

/-- `_apply_page_layout` on a document. -/
def applyPageLayoutD (d : DocM) : DocM :=
  { d with sections := d.sections.map applySectGeom }

/-- `_format_sections` on a document. -/
def formatSectionsD (d : DocM) : DocM :=
  { d with paragraphs := d.paragraphs.map formatSectionsP }

/-- `_format_lists` on a document. -/
def formatListsD (d : DocM) : DocM :=
  { d with paragraphs := d.paragraphs.map formatListsP }

/-- The Style & Layout Normalizer: the four formatting passes in the
order `load_and_refine_document` runs them. -/
def styleNormalizer (d : DocM) : DocM :=
  formatListsD (formatSectionsD (applyPageLayoutD (setupStylesD d)))

/-! ## Pipeline Orchestrator (`convert`) -/

/-- Outcome of the external converter invocation
(`convert_with_pandoc`): the tool ran and exited zero, the tool is
missing (`FileNotFoundError`, caught), or it exited non-zero. -/
inductive PandocRes
  | ok
  | toolMissing
  | exitNonzero
deriving DecidableEq

/-- Outcomes of the fallible steps of one conversion: the external
converter result, whether `load_and_refine_document` completes without
raising, and whether `self.doc.save` completes without raising. -/
structure ConvEnv where
  pandoc : PandocRes
  refineOk : Bool
  saveOk : Bool

/-- Filesystem state relevant to one conversion: existence of the
source file, of the temporary draft (`temp_*.docx`) and of the output
file. -/
structure FState where
  texExists : Bool
  tempExists : Bool
  outExists : Bool
deriving DecidableEq

/-- Exceptions that can propagate out of `convert` (Python has no
handler around `load_and_refine_document` or `save_document`). -/
inductive ConvExn
  | refineExn
  | saveExn
deriving DecidableEq

/-- Result of one `convert` call: the returned boolean or the escaped
exception, the final filesystem state, and how often the external
converter was invoked. -/
structure ConvOut where
  res : Except ConvExn Bool
  fs : FState
  pandocCalls : Nat

/-- `LaTeXToWordConverter.convert`: check the source path first
(short-circuit), invoke the external converter (its
`FileNotFoundError` and non-zero exits are caught and reported as
`False`), then load/refine (uncaught on failure; the draft stays),
then save (uncaught on failure; the draft stays) and finally delete
the draft and return `True`. -/
def convertRun (e : ConvEnv) (fs : FState) : ConvOut :=
  if fs.texExists = false then ⟨.ok false, fs, 0⟩
  else
    match e.pandoc with
    | .toolMissing => ⟨.ok false, fs, 1⟩
    | .exitNonzero => ⟨.ok false, fs, 1⟩
    | .ok =>
      let fs1 : FState := { fs with tempExists := true }
      if e.refineOk = false then ⟨.error .refineExn, fs1, 1⟩
      else if e.saveOk = false then ⟨.error .saveExn, fs1, 1⟩
      else ⟨.ok true, { fs1 with outExists := true, tempExists := false }, 1⟩

/-- Environment in which the external conversion succeeds but loading
or refining the draft document raises. -/
def refineFailEnv : ConvEnv := ⟨.ok, false, true⟩

/-- Initial filesystem state: source present, no draft, no output. -/
def startFS : FState := ⟨true, false, false⟩

/-- Counterexample table for the header post-condition: the single
cell line contains both the identity marker and the location marker
but no email marker. -/
def singleLineHeaderTable : TableM :=
  ⟨[ [⟨cl "Arman Shirzad aus Cottbus", false⟩, ⟨[], false⟩]
   , [⟨cl "Cottbus, Germany", false⟩, ⟨[], false⟩] ]⟩

/-- Well-formed header table whose first cell holds a name line
followed by a contact line lacking the phone substring. -/
def twoLineHeaderTable : TableM :=
  ⟨[ [⟨cl "Arman Shirzad\nCottbus, Germany    shirzarm@b-tu.de", false⟩, ⟨[], false⟩]
   , [⟨cl "Cottbus x", false⟩, ⟨[], false⟩] ]⟩

/-- Single-row, single-column table that the header detector skips. -/
def plainTable : TableM := ⟨[[⟨cl "Projekte", false⟩]]⟩

/-!
## Theorems

Claim-by-claim verification of the specification against the
embedding above.
-/

/-- Helper: external-converter failures are reported as `False`
and successful document operations end in `.ok`; used by the C1
theorems. -/
theorem convertRun_res_cases (e : ConvEnv) (fs : FState)
    (hr : e.refineOk = true) (hs : e.saveOk = true) :
    ∃ b, (convertRun e fs).res = Except.ok b := by
  cases htex : fs.texExists with
  | false => exact ⟨false, by simp [convertRun, htex]⟩
  | true =>
    cases hp : e.pandoc with
    | ok => exact ⟨true, by simp [convertRun, htex, hp, hr, hs]⟩
    | toolMissing => exact ⟨false, by simp [convertRun, htex, hp]⟩
    | exitNonzero => exact ⟨false, by simp [convertRun, htex, hp]⟩

/-- C1 (counterexample): when the external conversion succeeds but
loading/refining the draft raises, the exception escapes `convert`
instead of being reported as a boolean — `convert` has no handler
around `load_and_refine_document` (src/latex_to_word.py:560-580), so
the claim that no exception ever escapes is false at this input. -/
theorem convertRun_refine_failure_raises :
    (convertRun refineFailEnv startFS).res = Except.error ConvExn.refineExn := rfl

/-- C1 (amended): no exception escapes `convert` provided the document
load/refine and persist steps themselves do not raise; the
external-converter failure modes (missing tool, non-zero exit) are
caught inside `convert_with_pandoc` and reported as a boolean
result. -/
theorem convertRun_ok_of_document_ok (e : ConvEnv) (fs : FState)
    (hr : e.refineOk = true) (hs : e.saveOk = true) :
    ∃ b, (convertRun e fs).res = Except.ok b :=
  convertRun_res_cases e fs hr hs

/-- Witness for the amended C1 theorem at a concrete environment. -/
theorem convertRun_ok_of_document_ok_witness :
    ∃ b, (convertRun ⟨PandocRes.ok, true, true⟩ startFS).res = Except.ok b :=
  convertRun_ok_of_document_ok ⟨PandocRes.ok, true, true⟩ startFS rfl rfl

/-- C3 (counterexample): on the failure path where the draft was
produced and then `load_and_refine_document` raises, `convert` exits
with the draft file still on disk — the temporary draft is only
deleted inside `save_document` (src/latex_to_word.py:549-558), which
is never reached. -/
theorem convertRun_refine_failure_leaves_draft :
    (convertRun refineFailEnv startFS).fs.tempExists = true ∧
    (convertRun refineFailEnv startFS).res = Except.error ConvExn.refineExn :=
  ⟨rfl, rfl⟩

/-- C3 (amended): starting from a state with no draft, the temporary
draft document is gone when `convert` returns on the success path and
on the short-circuit failure paths (missing source, missing external
tool, non-zero converter exit); it is only left behind when
loading/refining or persisting raises. -/
theorem convertRun_draft_removed_of_document_ok (e : ConvEnv) (fs : FState)
    (h0 : fs.tempExists = false) (hr : e.refineOk = true) (hs : e.saveOk = true) :
    (convertRun e fs).fs.tempExists = false := by
  cases htex : fs.texExists with
  | false => simpa [convertRun, htex] using h0
  | true =>
    cases hp : e.pandoc with
    | ok => simp [convertRun, htex, hp, hr, hs]
    | toolMissing => simpa [convertRun, htex, hp] using h0
    | exitNonzero => simpa [convertRun, htex, hp] using h0

/-- Witness for the amended C3 theorem at a concrete environment. -/
theorem convertRun_draft_removed_of_document_ok_witness :
    (convertRun ⟨PandocRes.ok, true, true⟩ startFS).fs.tempExists = false :=
  convertRun_draft_removed_of_document_ok ⟨PandocRes.ok, true, true⟩ startFS rfl rfl rfl

/-- C6 (confirmed): a missing source file makes `convert` return
failure before the external converter is ever invoked — the existence
check is the first statement of `convert`
(src/latex_to_word.py:564-566). -/
theorem convertRun_source_missing_no_pandoc (e : ConvEnv) (fs : FState)
    (h : fs.texExists = false) :
    (convertRun e fs).res = Except.ok false ∧ (convertRun e fs).pandocCalls = 0 := by
  exact ⟨by simp [convertRun, h], by simp [convertRun, h]⟩

/-- Witness for the C6 theorem at a concrete environment. -/
theorem convertRun_source_missing_no_pandoc_witness :
    (convertRun ⟨PandocRes.ok, true, true⟩ ⟨false, false, false⟩).res = Except.ok false ∧
    (convertRun ⟨PandocRes.ok, true, true⟩ ⟨false, false, false⟩).pandocCalls = 0 :=
  convertRun_source_missing_no_pandoc ⟨PandocRes.ok, true, true⟩ ⟨false, false, false⟩ rfl

set_option maxRecDepth 8000 in
/-- C2 (counterexample): the full Text-Correction Engine is not a
fixed point after one pass.  On the input `"080808/2022"` one full run
produces `"0808/2022"` (the paragraph-level bare-slash fallback
re-doubles the prefix after the collapse rules already ran, and the
run-level pass collapses only once), and a second full run changes the
text again, to `"08/2022"`. -/
theorem fixTextIssues_second_pass_changes :
    fixTextIssues (fixTextIssues "080808/2022") ≠ fixTextIssues "080808/2022" := by
  decide

set_option maxRecDepth 8000 in
/-- C2 (amended): a second run of the full Text-Correction Engine
produces no further changes on the corrected forms of the known
artifact classes — a repaired truncated date range, a spaced
percentage, a restored quantity phrase, and a collapsed duplicate —
though the engine is not a one-pass fixed point for arbitrary texts
(see the counterexample, where a doubled month prefix keeps
shrinking across runs). -/
theorem fixTextIssues_second_pass_fixed_on_samples :
    fixTextIssues (fixTextIssues "/2022 bis 03/2025") = fixTextIssues "/2022 bis 03/2025" ∧
    fixTextIssues (fixTextIssues "∼30%") = fixTextIssues "∼30%" ∧
    fixTextIssues (fixTextIssues " Requests/Tag") = fixTextIssues " Requests/Tag" ∧
    fixTextIssues (fixTextIssues "Cottbus, Germany    Cottbus, Germany") =
      fixTextIssues "Cottbus, Germany    Cottbus, Germany" :=
  ⟨by decide, by decide, by decide, by decide⟩

set_option maxRecDepth 8000 in
/-- C10 (confirmed): the paragraph-level replacement list of
`_comprehensive_text_replacement` rewrites each already-correct slash
date for the five known years to the doubled-prefix form, because the
bare-slash fallbacks run after the doubled-prefix collapse rules
within the same pass; the doubled form is a fixed point of that
paragraph-level list, and only the separate run-level list of
`_fix_runs_directly` collapses it back. -/
theorem comprehensive_doubles_correct_dates :
    comprehensiveTextReplacement "08/2022" = "0808/2022" ∧
    comprehensiveTextReplacement "03/2021" = "0303/2021" ∧
    comprehensiveTextReplacement "08/2020" = "0808/2020" ∧
    comprehensiveTextReplacement "03/2025" = "0303/2025" ∧
    comprehensiveTextReplacement "09/2016" = "0909/2016" ∧
    comprehensiveTextReplacement "0808/2022" = "0808/2022" ∧
    fixRunsDirectly "0808/2022" = "08/2022" ∧
    fixRunsDirectly "0303/2021" = "03/2021" ∧
    fixRunsDirectly "0808/2020" = "08/2020" ∧
    fixRunsDirectly "0303/2025" = "03/2025" ∧
    fixRunsDirectly "0909/2016" = "09/2016" := by
  refine ⟨by decide, by decide, by decide, by decide, by decide, by decide,
    by decide, by decide, by decide, by decide, by decide⟩

/-- Helper: a line of the header cell containing both the location and
the email marker but not the phone substring is rewritten to the
canonical contact string. -/
theorem processHeaderLine_contact (l : Str) (h0 : ¬ trimL l = [])
    (hc : hasSub locMarker (replQuadL (trimL l)) = true)
    (he : hasSub mailMarker (replQuadL (trimL l)) = true)
    (hp : hasSub phoneMarker (replQuadL (trimL l)) = false) :
    processHeaderLine l = some canonicalContact := by
  simp [processHeaderLine, h0, hc, he, hp]

/-- Helper: a line of the header cell that is not a contact line but
contains the name marker is kept verbatim (after stripping and
`\quad` replacement). -/
theorem processHeaderLine_name (l : Str) (h0 : ¬ trimL l = [])
    (hnc : (hasSub locMarker (replQuadL (trimL l))
            && hasSub mailMarker (replQuadL (trimL l))) = false)
    (hn : hasSub nameMarker (replQuadL (trimL l)) = true) :
    processHeaderLine l = some (replQuadL (trimL l)) := by
  simp [processHeaderLine, h0, hnc, hn]

/-- C5 (confirmed): during header-cell reconstruction, every line that
contains both the location marker and the email marker but lacks the
phone-number substring is replaced verbatim, as a whole, by the fixed
canonical contact string (src/latex_to_word.py:239-241); no partial
repair of the line is attempted. -/
theorem headerLine_missing_phone_regenerated (l : Str) (h0 : ¬ trimL l = [])
    (hc : hasSub locMarker (replQuadL (trimL l)) = true)
    (he : hasSub mailMarker (replQuadL (trimL l)) = true)
    (hp : hasSub phoneMarker (replQuadL (trimL l)) = false) :
    processHeaderLine l = some canonicalContact :=
  processHeaderLine_contact l h0 hc he hp

/-- Witness for the C5 theorem at a concrete malformed contact line. -/
theorem headerLine_missing_phone_regenerated_witness :
    processHeaderLine (cl "Cottbus \\quad shirzarm@b-tu.de") = some canonicalContact :=
  headerLine_missing_phone_regenerated (cl "Cottbus \\quad shirzarm@b-tu.de")
    (by decide) (by decide) (by decide) (by decide)

/-- Helper: the header scan preserves the number of tables. -/
theorem handleHeader_length (pf : Bool) :
    ∀ ts : List TableM, (handleHeaderWithPhoto pf ts).length = ts.length := by
  intro ts
  induction ts with
  | nil => rfl
  | cons t ts ih =>
    by_cases h : headerTableMatch t = true
    · simp [handleHeaderWithPhoto, h]
    · simp [handleHeaderWithPhoto, h, ih]

/-- C8 (confirmed): every table that fails the header detector (fewer
than 2 rows, fewer than 2 columns in row 0, or a missing
identity/location marker) is left completely unchanged by the Header
Reconstructor — only the first table matching both markers is
rewritten (src/latex_to_word.py:157-167).  Out-of-range cell accesses
are modelled with an empty default cell, matching the rectangular
table invariant of the data model. -/
theorem handleHeader_nonmatching_unchanged (pf : Bool) (ts : List TableM)
    (i : Nat) (hi : i < ts.length)
    (hm : headerTableMatch (ts.getD i ⟨[]⟩) = false) :
    (handleHeaderWithPhoto pf ts).getD i ⟨[]⟩ = ts.getD i ⟨[]⟩ ∧
    (handleHeaderWithPhoto pf ts).length = ts.length := by
  refine ⟨?_, handleHeader_length pf ts⟩
  induction ts generalizing i with
  | nil => simp at hi
  | cons t ts ih =>
    by_cases h : headerTableMatch t = true
    · cases i with
      | zero => simp only [List.getD_cons_zero] at hm; rw [hm] at h; cases h
      | succ j => simp [handleHeaderWithPhoto, h]
    · cases i with
      | zero => simp [handleHeaderWithPhoto, h]
      | succ j =>
        have hj : j < ts.length := by simpa using hi
        have hmj : headerTableMatch (ts.getD j ⟨[]⟩) = false := by simpa using hm
        simpa [handleHeaderWithPhoto, h] using ih j hj hmj

/-- Witness for the C8 theorem: a one-row, one-column table is not
touched by the header scan. -/
theorem handleHeader_nonmatching_unchanged_witness :
    (handleHeaderWithPhoto true [plainTable]).getD 0 ⟨[]⟩ = plainTable ∧
    (handleHeaderWithPhoto true [plainTable]).length = [plainTable].length :=
  handleHeader_nonmatching_unchanged true [plainTable] 0 (by decide) (by decide)

/-- Helper: the style setup only assigns constants, so repeating it
changes nothing (the second lookup of `Heading 1` finds the style the
first run created). -/
theorem setupDocumentStyles_idem (st : StyleReg) :
    setupDocumentStyles (setupDocumentStyles st) = setupDocumentStyles st := rfl

/-- Helper: the page-layout pass only assigns constants per section. -/
theorem applySectGeom_idem (s : SectGeom) :
    applySectGeom (applySectGeom s) = applySectGeom s := rfl

/-- Helper: the two per-paragraph formatting passes assign constants
under text-dependent conditions and do not change the text, so
repeating them changes nothing. -/
theorem formatP_idem (p : ParaM) :
    formatListsP (formatSectionsP (formatListsP (formatSectionsP p))) =
      formatListsP (formatSectionsP p) := by
  by_cases hh : isHeadingTextB p.text = true <;>
    by_cases hl : isListTextB p.text = true <;>
      simp [formatSectionsP, formatListsP, hh, hl]

/-- C9 (confirmed): the Style & Layout Normalizer — document-wide
default style setup, heading-style definition and assignment,
list-item formatting, page size and margins — is idempotent: applying
it twice yields exactly the same styles, section geometry and
paragraph formatting as applying it once, since every pass assigns
fixed constants under conditions that depend only on unchanged
text. -/
theorem styleNormalizer_idem (d : DocM) :
    styleNormalizer (styleNormalizer d) = styleNormalizer d := by
  have hsec : ∀ secs : List SectGeom,
      List.map applySectGeom (List.map applySectGeom secs) =
        List.map applySectGeom secs := by
    intro secs
    induction secs with
    | nil => rfl
    | cons s ss ih => simp only [List.map_cons, ih, applySectGeom_idem]
  have hpar : ∀ ps : List ParaM,
      List.map formatListsP (List.map formatSectionsP
        (List.map formatListsP (List.map formatSectionsP ps))) =
        List.map formatListsP (List.map formatSectionsP ps) := by
    intro ps
    induction ps with
    | nil => rfl
    | cons p pp ih => simp only [List.map_cons, ih, formatP_idem]
  cases d with
  | mk st secs ps tbs =>
    simp only [styleNormalizer, formatListsD, formatSectionsD, applyPageLayoutD,
      setupStylesD]
    rw [setupDocumentStyles_idem, hsec, hpar]

/-- Helper: `leadsWith` is exactly the prefix relation. -/
theorem leadsWith_iff (p : Str) : ∀ l, leadsWith p l = true ↔ ∃ s, l = p ++ s := by
  induction p with
  | nil => intro l; simp [leadsWith]
  | cons c cs ih =>
    intro l
    cases l with
    | nil => simp [leadsWith]
    | cons d ds =>
      simp only [leadsWith, Bool.and_eq_true, beq_iff_eq, ih ds, List.cons_append]
      constructor
      · rintro ⟨rfl, s, rfl⟩; exact ⟨s, rfl⟩
      · rintro ⟨s, h⟩
        injection h with h1 h2
        exact ⟨h1.symm, s, h2⟩

/-- Helper: every section keyword starts with a letter, so a paragraph
recognised as a heading cannot also be recognised as a list item. -/
theorem isHeading_not_isList (t : Str) (h : isHeadingTextB t = true) :
    isListTextB t = false := by
  have hall : sectionKeywords.all
      (fun k => !leadsWith (cl "•") k && !leadsWith (cl "-") k && !k.isEmpty) = true := by
    decide
  rw [isHeadingTextB] at h
  rcases List.any_eq_true.mp h with ⟨k, hk, hlead⟩
  have hk' := List.all_eq_true.mp hall k hk
  simp only [Bool.and_eq_true, Bool.not_eq_true'] at hk'
  obtain ⟨⟨hbu, hhy⟩, hne⟩ := hk'
  obtain ⟨s, hs⟩ := (leadsWith_iff k (trimL t)).mp hlead
  cases k with
  | nil => simp at hne
  | cons c cs =>
    have e1 : cl "•" = ['•'] := rfl
    have e2 : cl "-" = ['-'] := rfl
    simp only [e1, e2, leadsWith, Bool.and_true] at hbu hhy
    simp only [isListTextB, hs, List.cons_append, e1, e2, leadsWith,
      Bool.and_true, Bool.or_eq_false_iff]
    exact ⟨hbu, hhy⟩

/-- C7 (confirmed): the Structural Classifier assigns `heading` iff
the stripped text starts with one of the fixed section-title strings
(exact case-sensitive prefix match, src/latex_to_word.py:130-144),
`list-item` iff the stripped text starts with the bullet glyph or a
hyphen (src/latex_to_word.py:146-155), and `body` otherwise; the
empty paragraph is classified `body`. -/
theorem classifyParagraph_characterization (t : Str) :
    (classifyParagraph t = Role.heading ↔
      ∃ k ∈ sectionKeywords, ∃ s, trimL t = k ++ s) ∧
    (classifyParagraph t = Role.listItem ↔
      ((∃ s, trimL t = '•' :: s) ∨ (∃ s, trimL t = '-' :: s))) ∧
    (classifyParagraph t = Role.body ↔
      ¬((∃ k ∈ sectionKeywords, ∃ s, trimL t = k ++ s) ∨
        (∃ s, trimL t = '•' :: s) ∨ (∃ s, trimL t = '-' :: s))) ∧
    classifyParagraph [] = Role.body := by
  have e1 : cl "•" = ['•'] := rfl
  have e2 : cl "-" = ['-'] := rfl
  have hH : isHeadingTextB t = true ↔ ∃ k ∈ sectionKeywords, ∃ s, trimL t = k ++ s := by
    simp [isHeadingTextB, List.any_eq_true, leadsWith_iff]
  have hL : isListTextB t = true ↔
      ((∃ s, trimL t = '•' :: s) ∨ (∃ s, trimL t = '-' :: s)) := by
    simp [isListTextB, e1, e2, leadsWith_iff]
  refine ⟨?_, ?_, ?_, by decide⟩
  · cases hh : isHeadingTextB t with
    | true => simp [classifyParagraph, hh, hH.mp hh]
    | false =>
      have : ¬ ∃ k ∈ sectionKeywords, ∃ s, trimL t = k ++ s := by
        intro hx; rw [hH.mpr hx] at hh; cases hh
      cases hl : isListTextB t <;> simp [classifyParagraph, hh, hl, this]
  · cases hh : isHeadingTextB t with
    | true =>
      have hl := isHeading_not_isList t hh
      have : ¬ ((∃ s, trimL t = '•' :: s) ∨ (∃ s, trimL t = '-' :: s)) := by
        intro hx; rw [hL.mpr hx] at hl; cases hl
      simp [classifyParagraph, hh, this]
    | false =>
      cases hl : isListTextB t with
      | true => simp [classifyParagraph, hh, hl, hL.mp hl]
      | false =>
        have : ¬ ((∃ s, trimL t = '•' :: s) ∨ (∃ s, trimL t = '-' :: s)) := by
          intro hx; rw [hL.mpr hx] at hl; cases hl
        simp [classifyParagraph, hh, hl, this]
  · cases hh : isHeadingTextB t with
    | true =>
      simp only [classifyParagraph, hh, if_true]
      simp [hH.mp hh]
    | false =>
      have hnH : ¬ ∃ k ∈ sectionKeywords, ∃ s, trimL t = k ++ s := by
        intro hx; rw [hH.mpr hx] at hh; cases hh
      cases hl : isListTextB t with
      | true => simp [classifyParagraph, hh, hl, hL.mp hl]
      | false =>
        have hnL : ¬ ((∃ s, trimL t = '•' :: s) ∨ (∃ s, trimL t = '-' :: s)) := by
          intro hx; rw [hL.mpr hx] at hl; cases hl
        simp [classifyParagraph, hh, hl, hnH, hnL]

set_option maxRecDepth 8000 in
/-- C4 (counterexample): the post-condition "exactly two lines" fails.
For a detected header table whose first cell is the single line
`"Arman Shirzad aus Cottbus"` (a name line containing the location
marker but no email marker), the reconstructed cell keeps that line
and — because a kept line already contains the location marker — never
appends the canonical contact line, so the cell holds one line, not
two. -/
theorem fixHeader_single_line_cell_not_two_lines :
    headerTableMatch singleLineHeaderTable = true ∧
    (handleHeaderWithPhoto false [singleLineHeaderTable]).getD 0 ⟨[]⟩ =
      ⟨[[⟨cl "Arman Shirzad aus Cottbus", false⟩, ⟨[], false⟩]]⟩ ∧
    (splitNl (cellText00
      ((handleHeaderWithPhoto false [singleLineHeaderTable]).getD 0 ⟨[]⟩))).length = 1 := by
  refine ⟨by decide, by decide, by decide⟩

/-- Helper: the header scan walks past non-matching tables and
rewrites the first matching one in place. -/
theorem handleHeader_skip (pf : Bool) (pre : List TableM) (t : TableM)
    (post : List TableM)
    (hpre : pre.all (fun u => !headerTableMatch u) = true)
    (hm : headerTableMatch t = true) :
    handleHeaderWithPhoto pf (pre ++ t :: post) =
      pre ++ addPhotoT pf (fixHeaderContentT t) :: post := by
  induction pre with
  | nil => simp [handleHeaderWithPhoto, hm]
  | cons u pre ih =>
    simp only [List.all_cons, Bool.and_eq_true, Bool.not_eq_true'] at hpre
    obtain ⟨hu, hpre'⟩ := hpre
    simp [handleHeaderWithPhoto, hu, ih hpre']

/-- Helper: the `_fix_header_content` line pass on a cell made of one
name line followed by one contact line lacking the phone substring
yields exactly the processed name line and the canonical contact
line. -/
theorem fixHeaderLines_two (n c : Str)
    (hn0 : ¬ trimL n = [])
    (hnc : (hasSub locMarker (replQuadL (trimL n))
            && hasSub mailMarker (replQuadL (trimL n))) = false)
    (hn : hasSub nameMarker (replQuadL (trimL n)) = true)
    (hc0 : ¬ trimL c = [])
    (hcl : hasSub locMarker (replQuadL (trimL c)) = true)
    (hce : hasSub mailMarker (replQuadL (trimL c)) = true)
    (hcp : hasSub phoneMarker (replQuadL (trimL c)) = false) :
    fixHeaderLinesL [n, c] = [replQuadL (trimL n), canonicalContact] := by
  have h1 := processHeaderLine_name n hn0 hnc hn
  have h2 := processHeaderLine_contact c hc0 hcl hce hcp
  have hloc : hasSub locMarker canonicalContact = true := by decide
  simp [fixHeaderLinesL, List.filterMap, h1, h2, hn, hloc]

/-- C4 (amended): for the first table in document order matching the
header detector (later matching tables are not touched), the
reconstructed table has exactly one row; when the original cell
consists of exactly one name line (containing the identity marker but
not both contact markers) followed by one contact line lacking the
phone substring, the cell afterwards holds exactly the processed name
line followed by the canonical contact line.  In general the cell
holds all kept name/contact lines in order, with the name inserted in
front if absent and the canonical contact appended only when no kept
line contains the location marker. -/
theorem handleHeader_first_match_two_lines (pf : Bool)
    (pre post : List TableM) (t : TableM) (n c : Str)
    (hpre : pre.all (fun u => !headerTableMatch u) = true)
    (hm : headerTableMatch t = true)
    (hsplit : splitNl (cellText00 t) = [n, c])
    (hn0 : ¬ trimL n = [])
    (hnc : (hasSub locMarker (replQuadL (trimL n))
            && hasSub mailMarker (replQuadL (trimL n))) = false)
    (hn : hasSub nameMarker (replQuadL (trimL n)) = true)
    (hc0 : ¬ trimL c = [])
    (hcl : hasSub locMarker (replQuadL (trimL c)) = true)
    (hce : hasSub mailMarker (replQuadL (trimL c)) = true)
    (hcp : hasSub phoneMarker (replQuadL (trimL c)) = false) :
    handleHeaderWithPhoto pf (pre ++ t :: post) =
      pre ++ addPhotoT pf (fixHeaderContentT t) :: post ∧
    (addPhotoT pf (fixHeaderContentT t)).rows.length = 1 ∧
    cellText00 (addPhotoT pf (fixHeaderContentT t)) =
      replQuadL (trimL n) ++ '\n' :: canonicalContact := by
  refine ⟨handleHeader_skip pf pre t post hpre hm, ?_, ?_⟩
  · cases pf <;> simp [addPhotoT, fixHeaderContentT]
  · have hcols : 2 ≤ (t.rows.getD 0 []).length := by
      simp only [headerTableMatch, Bool.and_eq_true, decide_eq_true_eq] at hm
      exact hm.1.1.2
    have htext : fixHeaderCellTextL (cellText00 t) =
        replQuadL (trimL n) ++ '\n' :: canonicalContact := by
      rw [fixHeaderCellTextL]
      show joinNl (fixHeaderLinesL (splitNl (cellText00 t))) = _
      rw [hsplit, fixHeaderLines_two n c hn0 hnc hn hc0 hcl hce hcp]
      rfl
    cases hr0 : t.rows.getD 0 [] with
    | nil => rw [hr0] at hcols; simp at hcols
    | cons a r1 =>
      cases r1 with
      | nil => rw [hr0] at hcols; simp at hcols
      | cons b rest =>
        simp only [cellText00, cellAt, hr0, List.getD_cons_zero] at htext
        have hr0n : t.rows[0]?.getD [] = a :: b :: rest := by simpa using hr0
        cases pf with
        | false =>
          simp [addPhotoT, fixHeaderContentT, cellText00, cellAt, hr0n, htext]
        | true =>
          simp [addPhotoT, fixHeaderContentT, cellText00, cellAt, hr0n, htext]

set_option maxRecDepth 8000 in
/-- Witness for the amended C4 theorem at a concrete two-line header
table. -/
theorem handleHeader_first_match_two_lines_witness :
    handleHeaderWithPhoto false [twoLineHeaderTable] =
      [addPhotoT false (fixHeaderContentT twoLineHeaderTable)] ∧
    (addPhotoT false (fixHeaderContentT twoLineHeaderTable)).rows.length = 1 ∧
    cellText00 (addPhotoT false (fixHeaderContentT twoLineHeaderTable)) =
      replQuadL (trimL (cl "Arman Shirzad")) ++ '\n' :: canonicalContact := by
  have h := handleHeader_first_match_two_lines false [] [] twoLineHeaderTable
    (cl "Arman Shirzad") (cl "Cottbus, Germany    shirzarm@b-tu.de")
    (by decide) (by decide) (by decide) (by decide) (by decide) (by decide)
    (by decide) (by decide) (by decide) (by decide)
  exact h

end LatexToWord
